import Mathlib

/-!
Verification of the `I2CController` class of the pyripherals repository
(`src/python/src/pyripherals/peripherals/I2CController.py`).

The Python class drives a register-mapped hardware I2C engine through a
narrow transport interface (`ActivateTriggerIn`, `SetWireInValue`,
`UpdateWireIns`, `UpdateTriggerOuts`, `IsTriggered`, `UpdateWireOuts`,
`GetWireOutValue`, `read_pipe_out`).  We embed the class shallowly:

* the mutable dictionary `self.i2c = {'m_pBuf': ..., 'm_nDataStart': ...}`
  becomes the state record `I2CState`;
* every call into the hardware transport becomes an event of the inductive
  type `Ev`, and each method returns, besides its Python return value, the
  list of events it emitted, in order (`time.sleep` is recorded as a
  `sleepMs` event carrying the duration in milliseconds);
* the hardware's answers are oracles passed in explicitly: `done k` is the
  result of the k-th `IsTriggered` poll of the DONE trigger and `outVal i`
  the value returned by the i-th `GetWireOutValue` read of the OUT wire;
* Python `None`-returns and raised `KeyError`s become constructors of the
  result types (`Option Bool` for `i2c_transmit`, `RxResult` for
  `i2c_receive`).

Indexing `buf[i]` on a Python list raises `IndexError` when out of range;
we totalise it as `List.getD _ i 0`, and `buf[i] = v` as `List.set`, which
agree with Python whenever the index is in range (all theorems below only
use in-range indices).
-/

/-- An FPGA endpoint handle: register address and low bit index, as used by
`self.endpoints[name].address` / `.bit_index_low` in the Python source. -/
structure Endpoint where
  address : Nat
  bit_index_low : Nat
deriving Repr, DecidableEq

/-- The endpoint dictionary `self.endpoints` with the keys the controller
uses.  `MEMSTART`, `MEMWRITE`, `IN`, `OUT`, `START`, `DONE`, `MEMREAD` are
accessed unconditionally; `FIFO_RESET` and `PIPE_OUT` are looked up only on
the pipe path and may be absent from the dictionary, hence `Option`. -/
structure Endpoints where
  MEMSTART : Endpoint
  MEMWRITE : Endpoint
  IN : Endpoint
  OUT : Endpoint
  START : Endpoint
  DONE : Endpoint
  MEMREAD : Endpoint
  FIFO_RESET : Option Endpoint
  PIPE_OUT : Option Endpoint
deriving Repr, DecidableEq

/-- One call into the hardware transport (or a `time.sleep`), recorded in
program order.  `isTriggered` and `getWireOutValue` also record the value
the hardware returned. -/
inductive Ev where
  | activateTriggerIn (address bit : Nat)
  | setWireInValue (address value mask : Nat)
  | updateWireIns
  | updateTriggerOuts
  | isTriggered (address bitmask : Nat) (result : Bool)
  | updateWireOuts
  | getWireOutValue (address : Nat) (result : Nat)
  | readPipeOut (address length : Nat)
  | sleepMs (ms : Nat)
deriving Repr, DecidableEq

/-- The controller state `self.i2c`: the command buffer `m_pBuf` and the
data start offset `m_nDataStart`. -/
structure I2CState where
  m_pBuf : List Nat
  m_nDataStart : Nat
deriving Repr, DecidableEq

/-- `I2CController.I2C_MAX_TIMEOUT_MS = 50`. -/
def I2C_MAX_TIMEOUT_MS : Nat := 50

/-- Model of Python's `str.lower()` for the ASCII strings used here
(`'wire'`, `'pipe'`). -/
def pyLower (s : String) : String := ⟨s.data.map Char.toLower⟩

/-- `i2c_configure(self, preamble_length, starts, stops, preamble)`.

The Python body only prints `'Preamble data is too long'` when
`preamble_length > 7` (the `throw DataTooLongException()` is commented
out) and then unconditionally rebuilds the buffer, so the model has no
error outcome: it always returns the new state.  The method performs no
hardware I/O, which is why it returns no event list. -/
def i2c_configure (s : I2CState) (preamble_length starts stops : Nat)
    (preamble : List Nat) : I2CState :=
  { m_pBuf := [preamble_length, starts, stops, 0] ++
      (List.range preamble_length).map (fun i => preamble.getD i 0),
    m_nDataStart := 4 + preamble_length }

/-- The three transport calls that push one buffer byte `b` into hardware
memory: masked write of `b <<< IN.bit_index_low` to the IN wire, commit,
MEMWRITE pulse (the shared body of the streaming loops of `i2c_transmit`
and `i2c_receive`). -/
def streamByte (ep : Endpoints) (b : Nat) : List Ev :=
  [Ev.setWireInValue ep.IN.address (b <<< ep.IN.bit_index_low)
      (0xff <<< ep.IN.bit_index_low),
   Ev.updateWireIns,
   Ev.activateTriggerIn ep.MEMWRITE.address ep.MEMWRITE.bit_index_low]

/-- The completion-wait loop of `i2c_transmit`: poll index `k`, remaining
fuel `n` (started at `I2C_MAX_TIMEOUT_MS`).  Each iteration refreshes the
trigger outs and polls DONE; on success it returns `True`, otherwise it
sleeps 1 ms and retries; falling off the loop prints a timeout message and
returns Python `None`, modelled as `Option.none`. -/
def transmitPoll (ep : Endpoints) (done : Nat → Bool) :
    Nat → Nat → List Ev × Option Bool
  | _, 0 => ([], Option.none)
  | k, n + 1 =>
    let evs := [Ev.updateTriggerOuts,
      Ev.isTriggered ep.DONE.address (1 <<< ep.DONE.bit_index_low) (done k)]
    if done k then (evs, some true)
    else
      let rest := transmitPoll ep done (k + 1) n
      (evs ++ [Ev.sleepMs 1] ++ rest.1, rest.2)

/-- `i2c_transmit(self, data, data_length)`: set buffer byte 3 to
`data_length`, append `data[0..data_length-1]`, pulse MEMSTART, stream the
first `data_length + m_nDataStart` buffer bytes, pulse START, then wait
for DONE. -/
def i2c_transmit (ep : Endpoints) (done : Nat → Bool) (s : I2CState)
    (data : List Nat) (data_length : Nat) :
    I2CState × List Ev × Option Bool :=
  let buf := s.m_pBuf.set 3 data_length ++
    (List.range data_length).map (fun i => data.getD i 0)
  let poll := transmitPoll ep done 0 I2C_MAX_TIMEOUT_MS
  ({ s with m_pBuf := buf },
   [Ev.activateTriggerIn ep.MEMSTART.address ep.MEMSTART.bit_index_low] ++
     ((List.range (data_length + s.m_nDataStart)).map
       (fun i => streamByte ep (buf.getD i 0))).flatten ++
     [Ev.activateTriggerIn ep.START.address ep.START.bit_index_low] ++
     poll.1,
   poll.2)

/-- Python return values of `i2c_receive` (and hence of `i2c_read_long`):
a list of bytes on the wire path, the `read_pipe_out` delegation on the
pipe path, a bare `return` when `readout` is false, `None` after the
timeout print, the hand-written `KeyError` of the missing-endpoint check,
and the `KeyError` a bare `self.endpoints['PIPE_OUT']` lookup would raise
at drain time. -/
inductive RxResult where
  | data (d : List Nat)
  | pipe (address length : Nat)
  | retNone
  | timeout
  | missingEndpoint
  | keyError
deriving Repr, DecidableEq

/-- The bytes assembled by the wire-path drain of `i2c_receive`: the i-th
OUT-wire read returns `outVal i`, from which the byte is extracted by mask
and shift (`data[i] = (data_tmp & mask) >> bit_index_low`). -/
def wireBytes (ep : Endpoints) (outVal : Nat → Nat) (data_length : Nat) :
    List Nat :=
  (List.range data_length).map (fun i =>
    (outVal i &&& (0xff <<< ep.OUT.bit_index_low)) >>> ep.OUT.bit_index_low)

/-- The wire-path drain of `i2c_receive`: pulse MEMSTART, then for each of
`data_length` bytes refresh the wire outs, read the OUT wire, extract the
byte, and pulse MEMREAD; returns the events and the assembled bytes. -/
def wireDrain (ep : Endpoints) (outVal : Nat → Nat) (data_length : Nat) :
    List Ev × List Nat :=
  (Ev.activateTriggerIn ep.MEMSTART.address ep.MEMSTART.bit_index_low ::
     ((List.range data_length).map (fun i =>
       [Ev.updateWireOuts,
        Ev.getWireOutValue ep.OUT.address (outVal i),
        Ev.activateTriggerIn ep.MEMREAD.address ep.MEMREAD.bit_index_low])).flatten,
   wireBytes ep outVal data_length)

/-- The completion-wait loop of `i2c_receive` (fuel starts at
`I2C_MAX_TIMEOUT_MS / 10`).  On DONE: bare return if `readout` is false;
wire drain if `data_transfer.lower() == 'wire'`; `read_pipe_out`
delegation if `'pipe'` (a missing PIPE_OUT endpoint raises `KeyError`
there); any other string falls through the inner ifs to the 10 ms sleep
and the next iteration, exactly as in the Python source. -/
def receivePoll (ep : Endpoints) (done : Nat → Bool) (outVal : Nat → Nat)
    (data_length : Nat) (data_transfer : String) (readout : Bool) :
    Nat → Nat → List Ev × RxResult
  | _, 0 => ([], RxResult.timeout)
  | k, n + 1 =>
    let evs := [Ev.updateTriggerOuts,
      Ev.isTriggered ep.DONE.address (1 <<< ep.DONE.bit_index_low) (done k)]
    if done k then
      if !readout then (evs, RxResult.retNone)
      else if pyLower data_transfer == "wire" then
        let dr := wireDrain ep outVal data_length
        (evs ++ dr.1, RxResult.data dr.2)
      else if pyLower data_transfer == "pipe" then
        match ep.PIPE_OUT with
        | some po =>
          (evs ++ [Ev.readPipeOut po.address data_length],
           RxResult.pipe po.address data_length)
        | Option.none => (evs, RxResult.keyError)
      else
        let rest := receivePoll ep done outVal data_length data_transfer
          readout (k + 1) n
        (evs ++ [Ev.sleepMs 10] ++ rest.1, rest.2)
    else
      let rest := receivePoll ep done outVal data_length data_transfer
        readout (k + 1) n
      (evs ++ [Ev.sleepMs 10] ++ rest.1, rest.2)

/-- The command buffer as mutated at the start of `i2c_receive`:
`m_pBuf[0] |= 0x80` (the read flag) and `m_pBuf[3] = data_length`. -/
def receiveBuf (s : I2CState) (data_length : Nat) : List Nat :=
  (s.m_pBuf.set 0 (s.m_pBuf.getD 0 0 ||| 0x80)).set 3 data_length

/-- The part of `i2c_receive` after the pipe pre-step: set the read flag
(bit 7) in buffer byte 0 and buffer byte 3 to `data_length`, pulse
MEMSTART, stream the first `m_nDataStart` buffer bytes, pulse START, then
run the completion-wait loop. -/
def receiveBody (ep : Endpoints) (done : Nat → Bool) (outVal : Nat → Nat)
    (s : I2CState) (data_length : Nat) (data_transfer : String)
    (readout : Bool) : I2CState × List Ev × RxResult :=
  let buf := receiveBuf s data_length
  let poll := receivePoll ep done outVal data_length data_transfer readout 0
    (I2C_MAX_TIMEOUT_MS / 10)
  ({ s with m_pBuf := buf },
   [Ev.activateTriggerIn ep.MEMSTART.address ep.MEMSTART.bit_index_low] ++
     ((List.range s.m_nDataStart).map
       (fun i => streamByte ep (buf.getD i 0))).flatten ++
     [Ev.activateTriggerIn ep.START.address ep.START.bit_index_low] ++
     poll.1,
   poll.2)

/-- `i2c_receive(self, data_length, data_transfer='wire', reset_pipe=True,
readout=True)`.  When `data_transfer.lower() == 'pipe'` and `reset_pipe`,
the FIFO_RESET and PIPE_OUT endpoints are looked up first — a missing one
raises the hand-written `KeyError` before any hardware I/O — and then
FIFO_RESET is pulsed; in every other case the body runs directly. -/
def i2c_receive (ep : Endpoints) (done : Nat → Bool) (outVal : Nat → Nat)
    (s : I2CState) (data_length : Nat) (data_transfer : String)
    (reset_pipe readout : Bool) : I2CState × List Ev × RxResult :=
  if pyLower data_transfer == "pipe" && reset_pipe then
    match ep.FIFO_RESET, ep.PIPE_OUT with
    | some fr, some _ =>
      let body := receiveBody ep done outVal s data_length data_transfer
        readout
      (body.1,
       Ev.activateTriggerIn fr.address fr.bit_index_low :: body.2.1,
       body.2.2)
    | _, _ => (s, [], RxResult.missingEndpoint)
  else
    receiveBody ep done outVal s data_length data_transfer readout

/-- The high-level methods receive `regAddr` either as Python `None`, as
the one-element list `[None]`, or as a list of register-address bytes; we
model that argument as `Option (List (Option Nat))`. -/
def regAddrIsNone (regAddr : Option (List (Option Nat))) : Bool :=
  match regAddr with
  | Option.none => true
  | some [Option.none] => true
  | _ => false

/-- Unwrap the entries of a `regAddr` list (a `None` entry inside a longer
list would make Python fail later when the byte is shifted; the claims
only use lists of actual bytes, where `getD` is exact). -/
def regAddrBytes (regAddr : Option (List (Option Nat))) : List Nat :=
  (regAddr.getD []).map (fun x => x.getD 0)

/-- `i2c_write_long(self, devAddr, regAddr, data_length, data)`: build
`preamble = [devAddr & 0xfe]` (plus the regAddr bytes unless `regAddr` is
`None`/`[None]`), configure with starts `0x00` and stops
`1 << len(preamble)`, then delegate to `i2c_transmit`. -/
def i2c_write_long (ep : Endpoints) (done : Nat → Bool) (s : I2CState)
    (devAddr : Nat) (regAddr : Option (List (Option Nat)))
    (data_length : Nat) (data : List Nat) :
    I2CState × List Ev × Option Bool :=
  let preamble : List Nat :=
    if regAddrIsNone regAddr then [devAddr &&& 0xfe]
    else [devAddr &&& 0xfe] ++ regAddrBytes regAddr
  let s1 := i2c_configure s preamble.length 0x00 (1 <<< preamble.length)
    preamble
  i2c_transmit ep done s1 data data_length

/-- `i2c_read_long(self, devAddr, regAddr, data_length, data_transfer,
reset_pipe, readout)`: configure with the single-byte read preamble
`[devAddr | 0x01]` (no starts, no stops) when `regAddr` is `None`/`[None]`,
otherwise with `[devAddr & 0xfe] + regAddr + [devAddr | 0x01]` and a start
before the repeated device address; then delegate to `i2c_receive` (whose
result the `readout` branch of the Python source passes back to the
caller, or drops when `readout` is false — both branches return the same
`None` values, so the model returns the receive result directly). -/
def i2c_read_long (ep : Endpoints) (done : Nat → Bool) (outVal : Nat → Nat)
    (s : I2CState) (devAddr : Nat) (regAddr : Option (List (Option Nat)))
    (data_length : Nat) (data_transfer : String) (reset_pipe readout : Bool) :
    I2CState × List Ev × RxResult :=
  let s1 :=
    if regAddrIsNone regAddr then
      i2c_configure s 1 0x00 0x00 [devAddr ||| 0x01]
    else
      let preamble := [devAddr &&& 0xfe] ++ regAddrBytes regAddr ++
        [devAddr ||| 0x01]
      i2c_configure s preamble.length (0x01 <<< (regAddrBytes regAddr).length)
        0x00 preamble
  i2c_receive ep done outVal s1 data_length data_transfer reset_pipe readout

/-- A controller instance as built by `I2CController.__init__`: besides its
`addr_pins`, it holds a *reference* to an `i2c` dictionary.  Python default
arguments are evaluated once, at function definition time, so the default
`i2c={'m_pBuf': [], 'm_nDataStart': 7}` is a single dictionary object
shared by every construction that omits the `i2c` argument; we model
dictionary identity with an index into an explicit heap of `I2CState`
cells, the default object being cell 0. -/
structure Chip where
  addr_pins : Nat
  i2cRef : Nat
deriving Repr, DecidableEq

/-- The heap of `i2c` dictionary objects. -/
structure Heap where
  cells : List I2CState
deriving Repr, DecidableEq

/-- The default value of the `i2c` parameter of `__init__`:
`{'m_pBuf': [], 'm_nDataStart': 7}`. -/
def defaultI2C : I2CState := { m_pBuf := [], m_nDataStart := 7 }

/-- The initial heap: the one shared default dictionary, created when
`__init__`'s default argument is evaluated. -/
def initialHeap : Heap := { cells := [defaultI2C] }

/-- `I2CController.create_chips(cls, fpga, addr_pins, endpoints)`: one
instance per entry of `addr_pins`, each constructed as
`cls(fpga=fpga, addr_pins=addr, endpoints=endpoints)` — the `i2c` argument
is omitted, so every instance's `self.i2c` is the shared default
dictionary, heap cell 0. -/
def create_chips (addr_pins : List Nat) : List Chip :=
  addr_pins.map (fun addr => { addr_pins := addr, i2cRef := 0 })

/-- Read a chip's `self.i2c` through its dictionary reference. -/
def chipI2C (h : Heap) (c : Chip) : I2CState :=
  h.cells.getD c.i2cRef defaultI2C

/-- `chip.i2c_configure(...)` acting on the heap: the chip's `i2c`
dictionary is updated in place, every alias of that dictionary sees the
new contents. -/
def chip_i2c_configure (h : Heap) (c : Chip) (preamble_length starts stops : Nat)
    (preamble : List Nat) : Heap :=
  { cells := h.cells.set c.i2cRef
      (i2c_configure (chipI2C h c) preamble_length starts stops preamble) }

/-! ### Helper lemmas -/

/-- Reading indices `0..n-1` of a list through `getD` yields its prefix of
length `n` (the Lean counterpart of Python's `[l[i] for i in range(n)]`). -/
theorem rangeMap_getD_take {α : Type} (l : List α) (d : α) :
    ∀ n, n ≤ l.length →
      (List.range n).map (fun i => l.getD i d) = l.take n := by
  intro n
  induction n with
  | zero => intro _; simp
  | succ m ih =>
    intro h
    have hm : m < l.length := h
    rw [List.range_succ, List.map_append, ih (Nat.le_of_lt hm), List.take_succ]
    simp [List.getElem?_eq_getElem hm]

/-- If some poll within the fuel budget reports DONE, `i2c_transmit`'s wait
loop returns `True`. -/
theorem transmitPoll_found (ep : Endpoints) (done : Nat → Bool) :
    ∀ fuel k0, (∃ j, j < fuel ∧ done (k0 + j) = true) →
      (transmitPoll ep done k0 fuel).2 = some true := by
  intro fuel
  induction fuel with
  | zero =>
    intro k0 hex
    obtain ⟨j, hj, _⟩ := hex
    exact absurd hj (Nat.not_lt_zero j)
  | succ n ih =>
    intro k0 hex
    obtain ⟨j, hj, hdj⟩ := hex
    by_cases hk : done k0 = true
    · simp [transmitPoll, hk]
    · have hk' : done k0 = false := Bool.eq_false_iff.mpr hk
      cases j with
      | zero => rw [Nat.add_zero] at hdj; exact absurd hdj hk
      | succ j' =>
        have hdj' : done ((k0 + 1) + j') = true := by
          rw [Nat.add_right_comm]; exact hdj
        have := ih (k0 + 1) ⟨j', Nat.lt_of_succ_lt_succ hj, hdj'⟩
        simpa [transmitPoll, hk'] using this

/-- If DONE is never reported, `i2c_transmit`'s wait loop performs exactly
`fuel` polls, each followed by a 1 ms sleep, and returns Python `None`. -/
theorem transmitPoll_never (ep : Endpoints) (done : Nat → Bool)
    (h : ∀ k, done k = false) :
    ∀ fuel k0, transmitPoll ep done k0 fuel =
      ((List.replicate fuel
        [Ev.updateTriggerOuts,
         Ev.isTriggered ep.DONE.address (1 <<< ep.DONE.bit_index_low) false,
         Ev.sleepMs 1]).flatten, Option.none) := by
  intro fuel
  induction fuel with
  | zero => intro k0; simp [transmitPoll]
  | succ n ih =>
    intro k0
    simp [transmitPoll, h k0, List.replicate_succ, ih (k0 + 1)]

/-- If some poll within the fuel budget reports DONE, the wire-mode,
`readout=True` wait loop of `i2c_receive` returns the drained bytes. -/
theorem receivePoll_found_wire (ep : Endpoints) (done : Nat → Bool)
    (outVal : Nat → Nat) (dl : Nat) :
    ∀ fuel k0, (∃ j, j < fuel ∧ done (k0 + j) = true) →
      (receivePoll ep done outVal dl "wire" true k0 fuel).2 =
        RxResult.data (wireBytes ep outVal dl) := by
  intro fuel
  induction fuel with
  | zero =>
    intro k0 hex
    obtain ⟨j, hj, _⟩ := hex
    exact absurd hj (Nat.not_lt_zero j)
  | succ n ih =>
    intro k0 hex
    obtain ⟨j, hj, hdj⟩ := hex
    by_cases hk : done k0 = true
    · simp [receivePoll, hk, wireDrain,
        (by decide : (pyLower "wire" == "wire") = true)]
    · have hk' : done k0 = false := Bool.eq_false_iff.mpr hk
      cases j with
      | zero => rw [Nat.add_zero] at hdj; exact absurd hdj hk
      | succ j' =>
        have hdj' : done ((k0 + 1) + j') = true := by
          rw [Nat.add_right_comm]; exact hdj
        have := ih (k0 + 1) ⟨j', Nat.lt_of_succ_lt_succ hj, hdj'⟩
        simpa [receivePoll, hk'] using this

/-- If DONE is never reported, `i2c_receive`'s wait loop performs exactly
`fuel` polls, each followed by a 10 ms sleep, and falls off the loop into
the timeout print. -/
theorem receivePoll_never (ep : Endpoints) (done : Nat → Bool)
    (outVal : Nat → Nat) (dl : Nat) (dt : String) (ro : Bool)
    (h : ∀ k, done k = false) :
    ∀ fuel k0, receivePoll ep done outVal dl dt ro k0 fuel =
      ((List.replicate fuel
        [Ev.updateTriggerOuts,
         Ev.isTriggered ep.DONE.address (1 <<< ep.DONE.bit_index_low) false,
         Ev.sleepMs 10]).flatten, RxResult.timeout) := by
  intro fuel
  induction fuel with
  | zero => intro k0; simp [receivePoll]
  | succ n ih =>
    intro k0
    simp [receivePoll, h k0, List.replicate_succ, ih (k0 + 1)]

/-- Setting the bits of `b` in `a` makes the `b`-masked part exactly `b`:
this is how `m_pBuf[0] |= 0x80` guarantees the read flag. -/
theorem or_and_self_nat (a b : Nat) : (a ||| b) &&& b = b := by
  apply Nat.eq_of_testBit_eq
  intro i
  cases hb : b.testBit i <;>
    simp [Nat.testBit_and, Nat.testBit_or, hb]

/-- `regAddr` given as an actual list of bytes is neither `None` nor
`[None]`. -/
theorem regAddrIsNone_map_some_cons (a : Nat) (t : List Nat) :
    regAddrIsNone (some ((a :: t).map some)) = false := rfl

/-- Unwrapping a list of actual bytes is the identity. -/
theorem regAddrBytes_map_some (ra : List Nat) :
    regAddrBytes (some (ra.map some)) = ra := by
  induction ra with
  | nil => rfl
  | cons a t ih => simpa [regAddrBytes] using ih

/-! ### Concrete fixtures used to instantiate the theorems -/

/-- A concrete endpoint map (addresses and bit offsets are arbitrary). -/
def epSample : Endpoints where
  MEMSTART := ⟨0x40, 0⟩
  MEMWRITE := ⟨0x40, 1⟩
  IN := ⟨0x00, 0⟩
  OUT := ⟨0x20, 0⟩
  START := ⟨0x40, 2⟩
  DONE := ⟨0x60, 0⟩
  MEMREAD := ⟨0x40, 3⟩
  FIFO_RESET := some ⟨0x40, 4⟩
  PIPE_OUT := some ⟨0xA0, 0⟩

/-- `epSample` with the FIFO_RESET endpoint missing from the dictionary. -/
def epNoFifo : Endpoints := { epSample with FIFO_RESET := Option.none }

/-- A DONE oracle that reports completion at the first poll. -/
def dAlways : Nat → Bool := fun _ => true

/-- A DONE oracle that never reports completion. -/
def dNever : Nat → Bool := fun _ => false

/-- An OUT-wire oracle returning 0 on every read. -/
def outZero : Nat → Nat := fun _ => 0

/-! ### Claims -/

/-- C1: for every `preamble_length` in [0,7] and any `starts`, `stops` and
preamble list with exactly `preamble_length` entries, `i2c_configure`
resets the command buffer to exactly
`[preamble_length, starts, stops, 0] ++ preamble` — so length
`4 + preamble_length`, byte 0 = `preamble_length`, byte 1 = `starts`,
byte 2 = `stops`, byte 3 = 0, bytes 4.. the preamble entries in order —
and sets `m_nDataStart` to `4 + preamble_length`.  No hardware I/O occurs:
`i2c_configure` is a pure state transformer, it emits no `Ev` events (its
result type has no event component). -/
theorem C1_configure_spec (s : I2CState) (preamble_length starts stops : Nat)
    (preamble : List Nat) (hpl : preamble_length ≤ 7)
    (hlen : preamble.length = preamble_length) :
    i2c_configure s preamble_length starts stops preamble =
      { m_pBuf := [preamble_length, starts, stops, 0] ++ preamble,
        m_nDataStart := 4 + preamble_length } ∧
    ([preamble_length, starts, stops, 0] ++ preamble).length =
      4 + preamble_length := by
  have h1 : (List.range preamble_length).map (fun i => preamble.getD i 0) =
      preamble := by
    rw [rangeMap_getD_take preamble 0 preamble_length (Nat.le_of_eq hlen.symm),
      ← hlen, List.take_length]
  constructor
  · unfold i2c_configure
    rw [h1]
  · simp only [List.length_append, List.length_cons, List.length_nil, hlen]

/-- Witness for C1 at `preamble_length = 2`, `preamble = [0xA0, 0x10]`. -/
theorem C1_configure_spec_witness :
    i2c_configure { m_pBuf := [], m_nDataStart := 7 } 2 0 4 [0xA0, 0x10] =
      { m_pBuf := [2, 0, 4, 0, 0xA0, 0x10], m_nDataStart := 4 + 2 } ∧
    (([2, 0, 4, 0] : List Nat) ++ [0xA0, 0x10]).length = 4 + 2 :=
  C1_configure_spec { m_pBuf := [], m_nDataStart := 7 } 2 0 4 [0xA0, 0x10]
    (by decide) (by decide)

/-- C2 (code bug): at `preamble_length = 8` the source only prints
`'Preamble data is too long'` (the exception is commented out) and
proceeds: `i2c_configure` still builds the 12-byte buffer and sets
`m_nDataStart = 12`, so the transaction is not prevented and the malformed
buffer is produced. -/
theorem C2_configure_preamble8_proceeds :
    i2c_configure { m_pBuf := [], m_nDataStart := 7 } 8 0 0
        [1, 2, 3, 4, 5, 6, 7, 8] =
      { m_pBuf := [8, 0, 0, 0, 1, 2, 3, 4, 5, 6, 7, 8],
        m_nDataStart := 12 } := by
  decide

/-- C3: for every `devAddr`, non-empty byte list `regAddr`, `data` and
`data_length`, `i2c_write_long` configures the buffer with preamble
`[devAddr & 0xfe] ++ regAddr`, start mask `0x00` and stop mask
`1 << len(preamble)`, and delegates to `i2c_transmit`; at the concrete
call `write(devAddr=0xA0, regAddr=[0x10], dataLength=1, data=[0x42])` the
resulting buffer is `[2, 0, 4, 1, 0xA0, 0x10, 0x42]`: preamble
`[0xA0, 0x10]`, stop mask `0x04`, and `0x42` appended right after the
preamble. -/
theorem C3_write_long_spec (ep : Endpoints) (done : Nat → Bool)
    (s : I2CState) (devAddr : Nat) (ra : List Nat) (hra : ra ≠ [])
    (data_length : Nat) (data : List Nat) :
    i2c_write_long ep done s devAddr (some (ra.map some)) data_length data =
      i2c_transmit ep done
        (i2c_configure s ([devAddr &&& 0xfe] ++ ra).length 0x00
          (1 <<< ([devAddr &&& 0xfe] ++ ra).length) ([devAddr &&& 0xfe] ++ ra))
        data data_length ∧
    (i2c_write_long ep done s 0xA0 (some [some 0x10]) 1 [0x42]).1.m_pBuf =
      [2, 0, 4, 1, 0xA0, 0x10, 0x42] := by
  constructor
  · obtain ⟨a, t, rfl⟩ : ∃ a t, ra = a :: t := by
      cases ra with
      | nil => exact absurd rfl hra
      | cons a t => exact ⟨a, t, rfl⟩
    simp only [i2c_write_long]
    rw [regAddrIsNone_map_some_cons a t, regAddrBytes_map_some (a :: t)]
    simp
  · rfl

/-- Witness for C3 at `regAddr = [0x10]`. -/
theorem C3_write_long_spec_witness :
    (i2c_write_long epSample dAlways { m_pBuf := [], m_nDataStart := 7 } 0xA0
        (some (([0x10] : List Nat).map some)) 1 [0x42] =
      i2c_transmit epSample dAlways
        (i2c_configure { m_pBuf := [], m_nDataStart := 7 }
          ([0xA0 &&& 0xfe] ++ [0x10]).length 0x00
          (1 <<< ([0xA0 &&& 0xfe] ++ [0x10]).length) ([0xA0 &&& 0xfe] ++ [0x10]))
        [0x42] 1 ∧
    (i2c_write_long epSample dAlways { m_pBuf := [], m_nDataStart := 7 } 0xA0
        (some [some 0x10]) 1 [0x42]).1.m_pBuf =
      [2, 0, 4, 1, 0xA0, 0x10, 0x42]) :=
  C3_write_long_spec epSample dAlways { m_pBuf := [], m_nDataStart := 7 } 0xA0
    [0x10] (by decide) 1 [0x42]

/-- C4: `i2c_read_long` configures the buffer in one of two shapes: when
`regAddr` is `None` or `[None]`, preamble `[devAddr | 0x01]` (one byte)
with start mask 0 and stop mask 0; when `regAddr` is a non-empty byte
list, preamble `[devAddr & 0xfe] ++ regAddr ++ [devAddr | 0x01]` with
start mask `1 << len(regAddr)` and stop mask 0; in both cases it delegates
to `i2c_receive` and returns its result. -/
theorem C4_read_long_spec (ep : Endpoints) (done : Nat → Bool)
    (outVal : Nat → Nat) (s : I2CState) (devAddr : Nat) (ra : List Nat)
    (hra : ra ≠ []) (data_length : Nat) (data_transfer : String)
    (reset_pipe readout : Bool) :
    (i2c_read_long ep done outVal s devAddr Option.none data_length
        data_transfer reset_pipe readout =
      i2c_receive ep done outVal
        (i2c_configure s 1 0x00 0x00 [devAddr ||| 0x01]) data_length
        data_transfer reset_pipe readout) ∧
    (i2c_read_long ep done outVal s devAddr (some [Option.none]) data_length
        data_transfer reset_pipe readout =
      i2c_receive ep done outVal
        (i2c_configure s 1 0x00 0x00 [devAddr ||| 0x01]) data_length
        data_transfer reset_pipe readout) ∧
    (i2c_read_long ep done outVal s devAddr (some (ra.map some)) data_length
        data_transfer reset_pipe readout =
      i2c_receive ep done outVal
        (i2c_configure s
          ([devAddr &&& 0xfe] ++ ra ++ [devAddr ||| 0x01]).length
          (0x01 <<< ra.length) 0x00
          ([devAddr &&& 0xfe] ++ ra ++ [devAddr ||| 0x01]))
        data_length data_transfer reset_pipe readout) := by
  refine ⟨rfl, rfl, ?_⟩
  obtain ⟨a, t, rfl⟩ : ∃ a t, ra = a :: t := by
    cases ra with
    | nil => exact absurd rfl hra
    | cons a t => exact ⟨a, t, rfl⟩
  simp only [i2c_read_long]
  rw [regAddrIsNone_map_some_cons a t, regAddrBytes_map_some (a :: t)]
  simp

/-- Witness for C4 at `devAddr = 0xA0`, `regAddr = [0x10]`. -/
theorem C4_read_long_spec_witness :
    (i2c_read_long epSample dAlways outZero { m_pBuf := [], m_nDataStart := 7 }
        0xA0 Option.none 2 "wire" true true =
      i2c_receive epSample dAlways outZero
        (i2c_configure { m_pBuf := [], m_nDataStart := 7 } 1 0x00 0x00
          [0xA0 ||| 0x01]) 2 "wire" true true) ∧
    (i2c_read_long epSample dAlways outZero { m_pBuf := [], m_nDataStart := 7 }
        0xA0 (some [Option.none]) 2 "wire" true true =
      i2c_receive epSample dAlways outZero
        (i2c_configure { m_pBuf := [], m_nDataStart := 7 } 1 0x00 0x00
          [0xA0 ||| 0x01]) 2 "wire" true true) ∧
    (i2c_read_long epSample dAlways outZero { m_pBuf := [], m_nDataStart := 7 }
        0xA0 (some (([0x10] : List Nat).map some)) 2 "wire" true true =
      i2c_receive epSample dAlways outZero
        (i2c_configure { m_pBuf := [], m_nDataStart := 7 }
          ([0xA0 &&& 0xfe] ++ [0x10] ++ [0xA0 ||| 0x01]).length
          (0x01 <<< ([0x10] : List Nat).length) 0x00
          ([0xA0 &&& 0xfe] ++ [0x10] ++ [0xA0 ||| 0x01]))
        2 "wire" true true) :=
  C4_read_long_spec epSample dAlways outZero { m_pBuf := [], m_nDataStart := 7 }
    0xA0 [0x10] (by decide) 2 "wire" true true

/-- C5: with a configured buffer (its length is the data start offset and
at least 4) and data holding at least `data_length` bytes, `i2c_transmit`
(i) leaves the buffer equal to the configured bytes with byte 3 set to
`data_length` and the first `data_length` data bytes appended, (ii) that
buffer has `data_length` at byte 3 and length
`data_length + m_nDataStart`, (iii) the emitted events are exactly: the
MEMSTART pulse, then for each of the `data_length + m_nDataStart` buffer
bytes in order the masked IN-wire write / commit / MEMWRITE pulse, then
the START pulse, then the poll events, and (iv) if some poll within the
50-attempt budget reports DONE the call returns success (`True`). -/
theorem C5_transmit_spec (ep : Endpoints) (done : Nat → Bool) (s : I2CState)
    (data : List Nat) (data_length : Nat)
    (hconf : s.m_pBuf.length = s.m_nDataStart)
    (h4 : 4 ≤ s.m_pBuf.length)
    (hdl : data_length ≤ data.length) :
    (i2c_transmit ep done s data data_length).1.m_pBuf =
      s.m_pBuf.set 3 data_length ++ data.take data_length ∧
    (s.m_pBuf.set 3 data_length ++ data.take data_length).getD 3 0 =
      data_length ∧
    (s.m_pBuf.set 3 data_length ++ data.take data_length).length =
      data_length + s.m_nDataStart ∧
    (i2c_transmit ep done s data data_length).2.1 =
      [Ev.activateTriggerIn ep.MEMSTART.address ep.MEMSTART.bit_index_low] ++
        ((s.m_pBuf.set 3 data_length ++ data.take data_length).map
          (streamByte ep)).flatten ++
        [Ev.activateTriggerIn ep.START.address ep.START.bit_index_low] ++
        (transmitPoll ep done 0 I2C_MAX_TIMEOUT_MS).1 ∧
    ((∃ j, j < I2C_MAX_TIMEOUT_MS ∧ done j = true) →
      (i2c_transmit ep done s data data_length).2.2 = some true) := by
  have htake : (List.range data_length).map (fun i => data.getD i 0) =
      data.take data_length := rangeMap_getD_take data 0 data_length hdl
  have hlen2 : (s.m_pBuf.set 3 data_length ++ data.take data_length).length =
      data_length + s.m_nDataStart := by
    simp only [List.length_append, List.length_set, List.length_take,
      Nat.min_eq_left hdl, hconf]
    omega
  have hget3 : (s.m_pBuf.set 3 data_length ++ data.take data_length).getD 3 0 =
      data_length := by
    have h3 : 3 < (s.m_pBuf.set 3 data_length).length := by
      simp only [List.length_set]; omega
    rw [List.getD_eq_getElem?_getD, List.getElem?_append_left h3,
      List.getElem?_set_self (by simp only [List.length_set] at h3; exact h3)]
    rfl
  have h1 : (List.range (data_length + s.m_nDataStart)).map
      (fun i => (s.m_pBuf.set 3 data_length ++ data.take data_length).getD i 0) =
      s.m_pBuf.set 3 data_length ++ data.take data_length := by
    rw [rangeMap_getD_take _ 0 _ (Nat.le_of_eq hlen2.symm), ← hlen2,
      List.take_length]
  refine ⟨?_, hget3, hlen2, ?_, ?_⟩
  · simp only [i2c_transmit]
    rw [htake]
  · simp only [i2c_transmit]
    rw [htake]
    have hstream : (List.range (data_length + s.m_nDataStart)).map
        (fun i => streamByte ep
          ((s.m_pBuf.set 3 data_length ++ data.take data_length).getD i 0)) =
        (s.m_pBuf.set 3 data_length ++ data.take data_length).map
          (streamByte ep) := by
      conv_rhs => rw [← h1]
      rw [List.map_map]
      rfl
    rw [hstream]
  · intro hex
    obtain ⟨j, hj, hdj⟩ := hex
    exact transmitPoll_found ep done I2C_MAX_TIMEOUT_MS 0
      ⟨j, hj, by simpa using hdj⟩

/-- A configured controller state: the buffer `i2c_configure` builds for
preamble `[0xA0, 0x10]` with stop mask `0x04`. -/
def sConf : I2CState := { m_pBuf := [2, 0, 4, 0, 0xA0, 0x10], m_nDataStart := 6 }

/-- A configured controller state for the repeated-start read example:
preamble `[0xA0, 0x10, 0xA1]`, start mask `0x02`. -/
def sReadConf : I2CState :=
  { m_pBuf := [3, 2, 0, 0, 0xA0, 0x10, 0xA1], m_nDataStart := 7 }

/-- An OUT-wire oracle returning `0x11`, `0x22`, ... on successive reads. -/
def outSample : Nat → Nat := fun i => 0x11 * (i + 1)

/-- Witness for C5: transmit `[0x42]` on the configured state `sConf`. -/
theorem C5_transmit_spec_witness :
    (i2c_transmit epSample dAlways sConf [0x42] 1).1.m_pBuf =
      sConf.m_pBuf.set 3 1 ++ ([0x42] : List Nat).take 1 ∧
    (sConf.m_pBuf.set 3 1 ++ ([0x42] : List Nat).take 1).getD 3 0 = 1 ∧
    (sConf.m_pBuf.set 3 1 ++ ([0x42] : List Nat).take 1).length =
      1 + sConf.m_nDataStart ∧
    (i2c_transmit epSample dAlways sConf [0x42] 1).2.1 =
      [Ev.activateTriggerIn epSample.MEMSTART.address
          epSample.MEMSTART.bit_index_low] ++
        ((sConf.m_pBuf.set 3 1 ++ ([0x42] : List Nat).take 1).map
          (streamByte epSample)).flatten ++
        [Ev.activateTriggerIn epSample.START.address
          epSample.START.bit_index_low] ++
        (transmitPoll epSample dAlways 0 I2C_MAX_TIMEOUT_MS).1 ∧
    ((∃ j, j < I2C_MAX_TIMEOUT_MS ∧ dAlways j = true) →
      (i2c_transmit epSample dAlways sConf [0x42] 1).2.2 = some true) :=
  C5_transmit_spec epSample dAlways sConf [0x42] 1 (by decide) (by decide)
    (by decide)

/-- C6: with a configured buffer, wire-mode `i2c_receive` with
`readout=True` (i) leaves the buffer equal to `receiveBuf s data_length`
(byte 0 with the read flag `0x80` set by `|=`, byte 3 set to
`data_length`), so (ii) bit 7 of byte 0 is set and (iii) byte 3 is
`data_length`; (iv) that buffer has exactly `m_nDataStart` bytes, and (v)
the emitted events stream exactly those `m_nDataStart` bytes (no payload)
then pulse START before polling; (vi) if some poll within the 5-attempt
budget reports DONE, the call returns exactly `data_length` bytes, each
extracted from the OUT register by mask and shift — never a short read. -/
theorem C6_receive_wire_spec (ep : Endpoints) (done : Nat → Bool)
    (outVal : Nat → Nat) (s : I2CState) (data_length : Nat) (rp : Bool)
    (hconf : s.m_pBuf.length = s.m_nDataStart)
    (h4 : 4 ≤ s.m_pBuf.length) :
    (i2c_receive ep done outVal s data_length "wire" rp true).1.m_pBuf =
      receiveBuf s data_length ∧
    (receiveBuf s data_length).getD 0 0 &&& 0x80 = 0x80 ∧
    (receiveBuf s data_length).getD 3 0 = data_length ∧
    (receiveBuf s data_length).length = s.m_nDataStart ∧
    (i2c_receive ep done outVal s data_length "wire" rp true).2.1 =
      [Ev.activateTriggerIn ep.MEMSTART.address ep.MEMSTART.bit_index_low] ++
        ((receiveBuf s data_length).map (streamByte ep)).flatten ++
        [Ev.activateTriggerIn ep.START.address ep.START.bit_index_low] ++
        (receivePoll ep done outVal data_length "wire" true 0
          (I2C_MAX_TIMEOUT_MS / 10)).1 ∧
    ((∃ j, j < I2C_MAX_TIMEOUT_MS / 10 ∧ done j = true) →
      (i2c_receive ep done outVal s data_length "wire" rp true).2.2 =
        RxResult.data (wireBytes ep outVal data_length) ∧
      (wireBytes ep outVal data_length).length = data_length) := by
  have hc : (pyLower "wire" == "pipe" && rp) = false := by
    rw [(by decide : (pyLower "wire" == "pipe") = false)]
    exact Bool.false_and rp
  have hrec : i2c_receive ep done outVal s data_length "wire" rp true =
      receiveBody ep done outVal s data_length "wire" true := by
    unfold i2c_receive
    rw [hc]
    simp
  have hlenrb : (receiveBuf s data_length).length = s.m_nDataStart := by
    simp only [receiveBuf, List.length_set]
    exact hconf
  have h0lt : 0 < s.m_pBuf.length := by omega
  have hg0 : (receiveBuf s data_length).getD 0 0 =
      s.m_pBuf.getD 0 0 ||| 0x80 := by
    unfold receiveBuf
    rw [List.getD_eq_getElem?_getD,
      List.getElem?_set_ne (by decide : (3 : Nat) ≠ 0),
      List.getElem?_set_self h0lt]
    rfl
  have hg3 : (receiveBuf s data_length).getD 3 0 = data_length := by
    unfold receiveBuf
    rw [List.getD_eq_getElem?_getD,
      List.getElem?_set_self (by simp only [List.length_set]; omega)]
    rfl
  have h1 : (List.range s.m_nDataStart).map
      (fun i => (receiveBuf s data_length).getD i 0) =
      receiveBuf s data_length := by
    rw [rangeMap_getD_take _ 0 _ (Nat.le_of_eq hlenrb.symm), ← hlenrb,
      List.take_length]
  refine ⟨?_, ?_, hg3, hlenrb, ?_, ?_⟩
  · rw [hrec]; rfl
  · rw [hg0]; exact or_and_self_nat _ 0x80
  · rw [hrec]
    simp only [receiveBody]
    have hstream : (List.range s.m_nDataStart).map
        (fun i => streamByte ep ((receiveBuf s data_length).getD i 0)) =
        (receiveBuf s data_length).map (streamByte ep) := by
      conv_rhs => rw [← h1]
      rw [List.map_map]
      rfl
    rw [hstream]
  · intro hex
    obtain ⟨j, hj, hdj⟩ := hex
    constructor
    · rw [hrec]
      exact receivePoll_found_wire ep done outVal data_length
        (I2C_MAX_TIMEOUT_MS / 10) 0 ⟨j, hj, by simpa using hdj⟩
    · simp [wireBytes]

/-- Witness for C6: wire-mode receive of 2 bytes on the configured
repeated-start read state, OUT register returning `0x11`, `0x22`. -/
theorem C6_receive_wire_spec_witness :
    (i2c_receive epSample dAlways outSample sReadConf 2 "wire" true
        true).1.m_pBuf = receiveBuf sReadConf 2 ∧
    (receiveBuf sReadConf 2).getD 0 0 &&& 0x80 = 0x80 ∧
    (receiveBuf sReadConf 2).getD 3 0 = 2 ∧
    (receiveBuf sReadConf 2).length = sReadConf.m_nDataStart ∧
    (i2c_receive epSample dAlways outSample sReadConf 2 "wire" true
        true).2.1 =
      [Ev.activateTriggerIn epSample.MEMSTART.address
          epSample.MEMSTART.bit_index_low] ++
        ((receiveBuf sReadConf 2).map (streamByte epSample)).flatten ++
        [Ev.activateTriggerIn epSample.START.address
          epSample.START.bit_index_low] ++
        (receivePoll epSample dAlways outSample 2 "wire" true 0
          (I2C_MAX_TIMEOUT_MS / 10)).1 ∧
    ((∃ j, j < I2C_MAX_TIMEOUT_MS / 10 ∧ dAlways j = true) →
      (i2c_receive epSample dAlways outSample sReadConf 2 "wire" true
          true).2.2 = RxResult.data (wireBytes epSample outSample 2) ∧
      (wireBytes epSample outSample 2).length = 2) :=
  C6_receive_wire_spec epSample dAlways outSample sReadConf 2 true
    (by decide) (by decide)

/-- C7: if DONE is never observed, `i2c_transmit` returns Python `None`
after exactly 50 DONE polls, each followed by a 1 ms sleep, and wire-mode
`i2c_receive` falls into the timeout print after exactly 5 DONE polls,
each followed by a 10 ms sleep; the two traces end right after the last
sleep — no retry, no further hardware access — and no (partial) data is
returned. -/
theorem C7_timeout_spec (ep : Endpoints) (done : Nat → Bool)
    (outVal : Nat → Nat) (s : I2CState) (data : List Nat)
    (data_length : Nat) (rp ro : Bool) (hdone : ∀ k, done k = false) :
    (i2c_transmit ep done s data data_length).2.2 = Option.none ∧
    (i2c_transmit ep done s data data_length).2.1 =
      [Ev.activateTriggerIn ep.MEMSTART.address ep.MEMSTART.bit_index_low] ++
        ((List.range (data_length + s.m_nDataStart)).map (fun i =>
          streamByte ep ((s.m_pBuf.set 3 data_length ++
            (List.range data_length).map
              (fun j => data.getD j 0)).getD i 0))).flatten ++
        [Ev.activateTriggerIn ep.START.address ep.START.bit_index_low] ++
        (List.replicate 50
          [Ev.updateTriggerOuts,
           Ev.isTriggered ep.DONE.address (1 <<< ep.DONE.bit_index_low) false,
           Ev.sleepMs 1]).flatten ∧
    (i2c_receive ep done outVal s data_length "wire" rp ro).2.2 =
      RxResult.timeout ∧
    (i2c_receive ep done outVal s data_length "wire" rp ro).2.1 =
      [Ev.activateTriggerIn ep.MEMSTART.address ep.MEMSTART.bit_index_low] ++
        ((List.range s.m_nDataStart).map (fun i =>
          streamByte ep ((receiveBuf s data_length).getD i 0))).flatten ++
        [Ev.activateTriggerIn ep.START.address ep.START.bit_index_low] ++
        (List.replicate 5
          [Ev.updateTriggerOuts,
           Ev.isTriggered ep.DONE.address (1 <<< ep.DONE.bit_index_low) false,
           Ev.sleepMs 10]).flatten := by
  have ht := transmitPoll_never ep done hdone I2C_MAX_TIMEOUT_MS 0
  have hr := receivePoll_never ep done outVal data_length "wire" ro hdone
    (I2C_MAX_TIMEOUT_MS / 10) 0
  have hc : (pyLower "wire" == "pipe" && rp) = false := by
    rw [(by decide : (pyLower "wire" == "pipe") = false)]
    exact Bool.false_and rp
  have hrec : i2c_receive ep done outVal s data_length "wire" rp ro =
      receiveBody ep done outVal s data_length "wire" ro := by
    unfold i2c_receive
    rw [hc]
    simp
  refine ⟨?_, ?_, ?_, ?_⟩
  · simp only [i2c_transmit, ht]
  · simp only [i2c_transmit, ht]
    rfl
  · rw [hrec]
    simp only [receiveBody, hr]
  · rw [hrec]
    simp only [receiveBody, hr]
    rfl

/-- Witness for C7: DONE never observed (`dNever`). -/
theorem C7_timeout_spec_witness :
    (i2c_transmit epSample dNever sConf [0x42] 1).2.2 = Option.none ∧
    (i2c_transmit epSample dNever sConf [0x42] 1).2.1 =
      [Ev.activateTriggerIn epSample.MEMSTART.address
          epSample.MEMSTART.bit_index_low] ++
        ((List.range (1 + sConf.m_nDataStart)).map (fun i =>
          streamByte epSample ((sConf.m_pBuf.set 3 1 ++
            (List.range 1).map
              (fun j => ([0x42] : List Nat).getD j 0)).getD i 0))).flatten ++
        [Ev.activateTriggerIn epSample.START.address
          epSample.START.bit_index_low] ++
        (List.replicate 50
          [Ev.updateTriggerOuts,
           Ev.isTriggered epSample.DONE.address
             (1 <<< epSample.DONE.bit_index_low) false,
           Ev.sleepMs 1]).flatten ∧
    (i2c_receive epSample dNever outZero sConf 1 "wire" true true).2.2 =
      RxResult.timeout ∧
    (i2c_receive epSample dNever outZero sConf 1 "wire" true true).2.1 =
      [Ev.activateTriggerIn epSample.MEMSTART.address
          epSample.MEMSTART.bit_index_low] ++
        ((List.range sConf.m_nDataStart).map (fun i =>
          streamByte epSample ((receiveBuf sConf 1).getD i 0))).flatten ++
        [Ev.activateTriggerIn epSample.START.address
          epSample.START.bit_index_low] ++
        (List.replicate 5
          [Ev.updateTriggerOuts,
           Ev.isTriggered epSample.DONE.address
             (1 <<< epSample.DONE.bit_index_low) false,
           Ev.sleepMs 10]).flatten :=
  C7_timeout_spec epSample dNever outZero sConf [0x42] 1 true true
    (fun _ => rfl)

/-- A configured single-byte read state (preamble `[0xA1]`). -/
def sRead1 : I2CState := { m_pBuf := [1, 0, 0, 0, 0xA1], m_nDataStart := 5 }

/-- C8 counterexample: a pipe-mode `i2c_receive` call with
`reset_pipe=False` and the FIFO_RESET endpoint absent raises no error at
all — the claim's MissingEndpoint report never happens — and hardware I/O
is performed (the event trace is non-empty; the run completes through
`read_pipe_out`). -/
theorem C8_counterexample :
    (i2c_receive epNoFifo dAlways outZero sRead1 1 "pipe" false true).2.2 =
      RxResult.pipe 0xA0 1 ∧
    (i2c_receive epNoFifo dAlways outZero sRead1 1 "pipe" false true).2.1 ≠
      [] := by
  decide

/-- C8 (amended): for every pipe-mode `i2c_receive` invocation **with
`reset_pipe=True`** where the FIFO_RESET or PIPE_OUT endpoint is absent,
the missing-endpoint `KeyError` is reported immediately: the state is
unchanged, the event trace is empty (no hardware I/O), and the result is
the error. -/
theorem C8_pipe_missing_endpoint (ep : Endpoints) (done : Nat → Bool)
    (outVal : Nat → Nat) (s : I2CState) (data_length : Nat) (ro : Bool)
    (hmiss : ep.FIFO_RESET = Option.none ∨ ep.PIPE_OUT = Option.none) :
    i2c_receive ep done outVal s data_length "pipe" true ro =
      (s, [], RxResult.missingEndpoint) := by
  unfold i2c_receive
  rw [(by decide : (pyLower "pipe" == "pipe") = true)]
  rcases hmiss with h | h
  · rw [h]
    cases hp : ep.PIPE_OUT <;> rfl
  · rw [h]
    cases hf : ep.FIFO_RESET <;> rfl

/-- Witness for C8 (amended) at `epNoFifo`. -/
theorem C8_pipe_missing_endpoint_witness :
    i2c_receive epNoFifo dAlways outZero sRead1 1 "pipe" true true =
      (sRead1, [], RxResult.missingEndpoint) :=
  C8_pipe_missing_endpoint epNoFifo dAlways outZero sRead1 1 true
    (Or.inl rfl)

/-- C9 (code bug): Python evaluates the default argument
`i2c={'m_pBuf': [], 'm_nDataStart': 7}` of `__init__` once, and
`create_chips` omits the `i2c` argument for every chip, so the two
instances returned for `addr_pins=[0, 1]` hold the *same* dictionary:
configuring the first chip rewrites the buffer the second chip reads,
which therefore does not stay unchanged as the claim requires. -/
theorem C9_shared_buffer :
    ((create_chips [0, 1]).getD 0 { addr_pins := 0, i2cRef := 0 }).i2cRef =
      ((create_chips [0, 1]).getD 1 { addr_pins := 0, i2cRef := 0 }).i2cRef ∧
    chipI2C initialHeap
        ((create_chips [0, 1]).getD 1 { addr_pins := 0, i2cRef := 0 }) =
      defaultI2C ∧
    chipI2C
        (chip_i2c_configure initialHeap
          ((create_chips [0, 1]).getD 0 { addr_pins := 0, i2cRef := 0 })
          1 0 0 [0xA0])
        ((create_chips [0, 1]).getD 1 { addr_pins := 0, i2cRef := 0 }) =
      { m_pBuf := [1, 0, 0, 0, 0xA0], m_nDataStart := 5 } ∧
    chipI2C
        (chip_i2c_configure initialHeap
          ((create_chips [0, 1]).getD 0 { addr_pins := 0, i2cRef := 0 })
          1 0 0 [0xA0])
        ((create_chips [0, 1]).getD 1 { addr_pins := 0, i2cRef := 0 }) ≠
      chipI2C initialHeap
        ((create_chips [0, 1]).getD 1 { addr_pins := 0, i2cRef := 0 }) := by
  decide

/-- Whenever `i2c_receive` does not abort with the missing-endpoint
`KeyError`, its body runs and the resulting state is the input state with
the buffer mutated to `receiveBuf` (read flag set, byte 3 set). -/
theorem receive_state_eq (ep : Endpoints) (done : Nat → Bool)
    (outVal : Nat → Nat) (s : I2CState) (data_length : Nat)
    (data_transfer : String) (reset_pipe readout : Bool)
    (hok : (i2c_receive ep done outVal s data_length data_transfer reset_pipe
        readout).2.2 ≠ RxResult.missingEndpoint) :
    (i2c_receive ep done outVal s data_length data_transfer reset_pipe
        readout).1 = { s with m_pBuf := receiveBuf s data_length } := by
  unfold i2c_receive at hok ⊢
  by_cases hc : (pyLower data_transfer == "pipe" && reset_pipe) = true
  · rw [if_pos hc] at hok ⊢
    cases hf : ep.FIFO_RESET with
    | none =>
      rw [hf] at hok
      cases hp : ep.PIPE_OUT <;> rw [hp] at hok <;> exact absurd rfl hok
    | some fr =>
      cases hp : ep.PIPE_OUT with
      | none =>
        rw [hf, hp] at hok
        exact absurd rfl hok
      | some po => rfl
  · rw [if_neg hc]
    rfl

/-- C10: after any `i2c_receive` call that runs its body — whether it
completes, drains data, or times out; the only excluded outcome is the
pipe-mode missing-endpoint `KeyError`, which aborts before the buffer is
touched — bit 7 (the read flag, set by `m_pBuf[0] |= 0x80`) of
command-buffer byte 0 is set; an `i2c_transmit` issued afterwards without
an intervening `i2c_configure` leaves byte 0 unchanged and streams it as
its first buffer byte: the second emitted event is the IN-wire write of
that read-flagged control byte. -/
theorem C10_read_flag (ep : Endpoints) (done done2 : Nat → Bool)
    (outVal : Nat → Nat) (s : I2CState) (data_length : Nat)
    (data_transfer : String) (reset_pipe readout : Bool)
    (data : List Nat) (dl2 : Nat)
    (h4 : 4 ≤ s.m_pBuf.length) (hds : 0 < s.m_nDataStart)
    (hok : (i2c_receive ep done outVal s data_length data_transfer reset_pipe
        readout).2.2 ≠ RxResult.missingEndpoint) :
    (i2c_receive ep done outVal s data_length data_transfer reset_pipe
        readout).1.m_pBuf.getD 0 0 &&& 0x80 = 0x80 ∧
    (i2c_transmit ep done2
        (i2c_receive ep done outVal s data_length data_transfer reset_pipe
          readout).1 data dl2).1.m_pBuf.getD 0 0 =
      (i2c_receive ep done outVal s data_length data_transfer reset_pipe
        readout).1.m_pBuf.getD 0 0 ∧
    (i2c_transmit ep done2
        (i2c_receive ep done outVal s data_length data_transfer reset_pipe
          readout).1 data dl2).2.1.getD 1 Ev.updateWireIns =
      Ev.setWireInValue ep.IN.address
        ((i2c_receive ep done outVal s data_length data_transfer reset_pipe
            readout).1.m_pBuf.getD 0 0 <<< ep.IN.bit_index_low)
        (0xff <<< ep.IN.bit_index_low) := by
  have hs := receive_state_eq ep done outVal s data_length data_transfer
    reset_pipe readout hok
  rw [hs]
  have h0lt : 0 < s.m_pBuf.length := by omega
  have hg0 : (receiveBuf s data_length).getD 0 0 =
      s.m_pBuf.getD 0 0 ||| 0x80 := by
    unfold receiveBuf
    rw [List.getD_eq_getElem?_getD,
      List.getElem?_set_ne (by decide : (3 : Nat) ≠ 0),
      List.getElem?_set_self h0lt]
    rfl
  have hsetlen : 0 < ((receiveBuf s data_length).set 3 dl2).length := by
    simp only [List.length_set, receiveBuf]
    omega
  have hgb : ((receiveBuf s data_length).set 3 dl2 ++
      (List.range dl2).map (fun i => data.getD i 0)).getD 0 0 =
      (receiveBuf s data_length).getD 0 0 := by
    rw [List.getD_eq_getElem?_getD, List.getElem?_append_left hsetlen,
      List.getElem?_set_ne (by decide : (3 : Nat) ≠ 0),
      ← List.getD_eq_getElem?_getD]
  refine ⟨?_, ?_, ?_⟩
  · show (receiveBuf s data_length).getD 0 0 &&& 0x80 = 0x80
    rw [hg0]
    exact or_and_self_nat _ 0x80
  · exact hgb
  · obtain ⟨k, hk⟩ : ∃ k, dl2 + s.m_nDataStart = k + 1 :=
      ⟨dl2 + s.m_nDataStart - 1, by omega⟩
    show ([Ev.activateTriggerIn ep.MEMSTART.address
        ep.MEMSTART.bit_index_low] ++
      ((List.range (dl2 + s.m_nDataStart)).map (fun i => streamByte ep
        (((receiveBuf s data_length).set 3 dl2 ++
          (List.range dl2).map (fun j => data.getD j 0)).getD i 0))).flatten ++
      [Ev.activateTriggerIn ep.START.address ep.START.bit_index_low] ++
      (transmitPoll ep done2 0 I2C_MAX_TIMEOUT_MS).1).getD 1
        Ev.updateWireIns =
      Ev.setWireInValue ep.IN.address
        ((receiveBuf s data_length).getD 0 0 <<< ep.IN.bit_index_low)
        (0xff <<< ep.IN.bit_index_low)
    rw [hk, List.range_succ_eq_map]
    simp only [List.map_cons, List.flatten_cons, streamByte, hgb,
      List.cons_append, List.nil_append, List.append_assoc,
      List.getD_cons_succ, List.getD_cons_zero]

/-- Witness for C10: wire receive on `sConf`, then transmit with no
payload and no reconfiguration. -/
theorem C10_read_flag_witness :
    (i2c_receive epSample dAlways outZero sConf 1 "wire" true
        true).1.m_pBuf.getD 0 0 &&& 0x80 = 0x80 ∧
    (i2c_transmit epSample dAlways
        (i2c_receive epSample dAlways outZero sConf 1 "wire" true
          true).1 [] 0).1.m_pBuf.getD 0 0 =
      (i2c_receive epSample dAlways outZero sConf 1 "wire" true
        true).1.m_pBuf.getD 0 0 ∧
    (i2c_transmit epSample dAlways
        (i2c_receive epSample dAlways outZero sConf 1 "wire" true
          true).1 [] 0).2.1.getD 1 Ev.updateWireIns =
      Ev.setWireInValue epSample.IN.address
        ((i2c_receive epSample dAlways outZero sConf 1 "wire" true
            true).1.m_pBuf.getD 0 0 <<< epSample.IN.bit_index_low)
        (0xff <<< epSample.IN.bit_index_low) :=
  C10_read_flag epSample dAlways dAlways outZero sConf 1 "wire" true true
    [] 0 (by decide) (by decide) (by decide)
